import Mathlib

/-!
Verification development for the lume scene-graph core.

This file shallowly embeds the parts of the source that the spec's claims
are about:

* `TreeNode.ts` (`add`, `removeNode`, `subnodes`, `childCount`) as a state
  of parent pointers, children lists, connectivity flags, and a queue of
  deferred lifecycle callbacks;
* `ImperativeBase` (unnamed source file `part_000`): the `three`/`threeCSS`
  lazy getters, `_loadGL`/`_loadCSS`, the `connectedCallback` autorun that
  propagates parent-size changes, and `_calculateMatrix`;
* `GltfModelBehavior`: the `#version` token and the stale-completion checks
  in the loader callbacks.

Node identities are natural numbers.  Sizes and coordinates are rationals.
-/

namespace LumeSpec

/-- A deferred lifecycle callback task, queued by `defer(...)` in
`TreeNode.add` / `TreeNode.removeNode`.  One `defer` call in `add` runs both
`childNode.connected()` and `this.childConnected(childNode)`; it is recorded
as one `connectedEvt child parent` entry, and likewise for removal. -/
inductive TreeEvent where
  | connectedEvt : Nat → Nat → TreeEvent
  | disconnectedEvt : Nat → Nat → TreeEvent
deriving DecidableEq, Repr

/-- State of the `TreeNode` forest: for each node id, its `__parent`
pointer, its `__children` array, and its `__isConnected` flag; plus the
queue of deferred (not yet executed) lifecycle callbacks. -/
structure TreeState where
  parent : Nat → Option Nat
  children : Nat → List Nat
  connectedFlag : Nat → Bool
  pending : List TreeEvent

/-- The initial state: every node is a root with no children. -/
def initState : TreeState where
  parent := fun _ => none
  children := fun _ => []
  connectedFlag := fun _ => false
  pending := []

/-- `this.__children.splice(this.__children.indexOf(childNode), 1)`:
JavaScript `indexOf` returns `-1` when the element is absent, and
`splice(-1, 1)` then removes the last element, so absence removes the last
element (a no-op on the empty array).  When the element is present the
first occurrence is removed. -/
def spliceRemove (l : List Nat) (c : Nat) : List Nat :=
  if c ∈ l then l.erase c else l.dropLast

/-- Errors thrown synchronously by `TreeNode` methods.  `notAChild` is the
`ReferenceError('childNode is not a child of this parent.')` thrown by
`removeNode`. -/
inductive TreeErr where
  | notAChild : TreeErr
deriving DecidableEq, Repr

/-- The mutation body of `TreeNode.removeNode(childNode)` after its guard
has passed: clear the child's parent pointer, splice it out of the parent's
children array, clear `__isConnected`, and defer the
`disconnected`/`childDisconnected` callbacks. -/
def removeNodeCore (s : TreeState) (p c : Nat) : TreeState where
  parent := fun n => if n = c then none else s.parent n
  children := fun n => if n = p then spliceRemove (s.children p) c else s.children n
  connectedFlag := fun n => if n = c then false else s.connectedFlag n
  pending := s.pending ++ [TreeEvent.disconnectedEvt c p]

/-- `TreeNode.removeNode(childNode)` called on parent `p` with child `c`:
throws (returns `Except.error`) when `childNode.__parent !== this`, before
any mutation; otherwise performs the mutation. -/
def removeNode (s : TreeState) (p c : Nat) : Except TreeErr TreeState :=
  if s.parent c = some p then Except.ok (removeNodeCore s p c) else Except.error TreeErr.notAChild

/-- The attachment half of `TreeNode.add`: set the child's parent pointer,
push the child onto the end of the parent's children array, set
`__isConnected = true`, and defer the `connected`/`childConnected`
callbacks. -/
def attachChild (s1 : TreeState) (p c : Nat) : TreeState where
  parent := fun n => if n = c then some p else s1.parent n
  children := fun n => if n = p then s1.children p ++ [c] else s1.children n
  connectedFlag := fun n => if n = c then true else s1.connectedFlag n
  pending := s1.pending ++ [TreeEvent.connectedEvt c p]

/-- `TreeNode.add(childNode)` called on parent `p` with child `c`:

* if `childNode.__parent === this`, return immediately with no change;
* else, if the child has a parent, detach it via that parent's
  `removeNode` (whose guard holds by construction at that call site);
* then attach (pointer, push onto the children array, `__isConnected`,
  deferred callbacks).

The source performs no cycle check of any kind. -/
def add (s : TreeState) (p c : Nat) : TreeState :=
  if s.parent c = some p then s
  else
    attachChild
      (match s.parent c with
       | some q => removeNodeCore s q c
       | none => s)
      p c

/-- One structural operation on the tree: `parent.add(child)` or
`parent.removeNode(child)`. -/
inductive TreeOp where
  | addOp : Nat → Nat → TreeOp
  | removeOp : Nat → Nat → TreeOp
deriving DecidableEq, Repr

/-- Run one operation.  A `removeNode` call whose guard fails throws; the
exception leaves the tree exactly as it was, so a sequence that continues
past it continues from the unchanged state. -/
def stepOp (s : TreeState) (op : TreeOp) : TreeState :=
  match op with
  | TreeOp.addOp p c => add s p c
  | TreeOp.removeOp p c =>
    match removeNode s p c with
    | Except.ok t => t
    | Except.error _ => s

/-- Run a sequence of operations from a state. -/
def applyOps (s : TreeState) (ops : List TreeOp) : TreeState :=
  ops.foldl stepOp s

/-- Follow parent pointers `k` times from node `n` (`none` on reaching a
root first). -/
def parentIter (s : TreeState) (k : Nat) (n : Nat) : Option Nat :=
  match k with
  | 0 => some n
  | Nat.succ j => (parentIter s j n).bind s.parent

/-- The spec's §3 structural invariant, consistency half: a node `a` is in
`b`'s children array iff `a`'s parent pointer is `b`, and no children array
holds duplicates. -/
def Consistent (s : TreeState) : Prop :=
  (∀ a b : Nat, a ∈ s.children b ↔ s.parent a = some b) ∧
    ∀ b : Nat, (s.children b).Nodup

theorem initState_consistent : Consistent initState := by
  constructor
  · intro a b
    simp [initState]
  · intro b
    simp [initState]

theorem removeNodeCore_parent_c (s : TreeState) (p c : Nat) :
    (removeNodeCore s p c).parent c = none := by
  simp [removeNodeCore]

theorem removeNodeCore_consistent (s : TreeState) (p c : Nat)
    (hs : Consistent s) (hpc : s.parent c = some p) :
    Consistent (removeNodeCore s p c) := by
  obtain ⟨hmem, hnd⟩ := hs
  have hcmem : c ∈ s.children p := (hmem c p).mpr hpc
  have hsplice : spliceRemove (s.children p) c = (s.children p).erase c := by
    simp [spliceRemove, hcmem]
  constructor
  · intro a b
    by_cases hb : b = p
    · by_cases hac : a = c
      · simp [removeNodeCore, hb, hac, hsplice, (hnd p).mem_erase_iff]
      · simp [removeNodeCore, hb, hac, hsplice, (hnd p).mem_erase_iff, hmem a p]
    · by_cases hac : a = c
      · simp only [removeNodeCore, if_neg hb, if_pos hac, hac]
        constructor
        · intro hin
          have hx := (hmem c b).mp hin
          rw [hpc] at hx
          exact absurd (Option.some.inj hx).symm hb
        · intro h
          exact Option.noConfusion h
      · simp [removeNodeCore, hb, hac, hmem a b]
  · intro b
    by_cases hb : b = p
    · have hch : (removeNodeCore s p c).children b = (s.children p).erase c := by
        simp [removeNodeCore, hb, hsplice]
      rw [hch]
      exact (hnd p).erase c
    · have hch : (removeNodeCore s p c).children b = s.children b := by
        simp [removeNodeCore, hb]
      rw [hch]
      exact hnd b

theorem attachChild_consistent (s1 : TreeState) (p c : Nat)
    (hs : Consistent s1) (hc : s1.parent c = none) :
    Consistent (attachChild s1 p c) := by
  obtain ⟨hmem, hnd⟩ := hs
  have hcnot : ∀ b : Nat, c ∉ s1.children b := by
    intro b hb
    have hx := (hmem c b).mp hb
    rw [hc] at hx
    exact Option.noConfusion hx
  constructor
  · intro a b
    by_cases hb : b = p
    · by_cases hac : a = c
      · simp [attachChild, hb, hac, hcnot p]
      · simp [attachChild, hb, hac, hmem a p]
    · by_cases hac : a = c
      · simp only [attachChild, if_neg hb, if_pos hac, hac]
        constructor
        · intro hin
          exact absurd hin (hcnot b)
        · intro h
          exact absurd (Option.some.inj h).symm hb
      · simp [attachChild, hb, hac, hmem a b]
  · intro b
    by_cases hb : b = p
    · have hch : (attachChild s1 p c).children b = s1.children p ++ [c] := by
        simp [attachChild, hb]
      rw [hch, List.nodup_append]
      refine ⟨hnd p, List.nodup_singleton c, ?_⟩
      intro x hx hx2
      rw [List.mem_singleton] at hx2
      rw [hx2] at hx
      exact absurd hx (hcnot p)
    · have hch : (attachChild s1 p c).children b = s1.children b := by
        simp [attachChild, hb]
      rw [hch]
      exact hnd b

theorem add_consistent (s : TreeState) (p c : Nat) (hs : Consistent s) :
    Consistent (add s p c) := by
  unfold add
  by_cases h0 : s.parent c = some p
  · rw [if_pos h0]
    exact hs
  · rw [if_neg h0]
    cases hq : s.parent c with
    | none =>
      simp only [hq]
      exact attachChild_consistent s p c hs hq
    | some q =>
      simp only [hq]
      exact attachChild_consistent (removeNodeCore s q c) p c
        (removeNodeCore_consistent s q c hs hq) (removeNodeCore_parent_c s q c)

theorem stepOp_consistent (s : TreeState) (op : TreeOp) (hs : Consistent s) :
    Consistent (stepOp s op) := by
  cases op with
  | addOp p c => exact add_consistent s p c hs
  | removeOp p c =>
    simp only [stepOp, removeNode]
    by_cases h : s.parent c = some p
    · simp only [if_pos h]
      exact removeNodeCore_consistent s p c hs h
    · simp only [if_neg h]
      exact hs

theorem applyOps_consistent (ops : List TreeOp) :
    ∀ s : TreeState, Consistent s → Consistent (applyOps s ops) := by
  induction ops with
  | nil => intro s hs; exact hs
  | cons op rest ih =>
    intro s hs
    exact ih (stepOp s op) (stepOp_consistent s op hs)

theorem parentIter_succ_front (s : TreeState) (j n : Nat) :
    parentIter s (j + 1) n = (s.parent n).bind (fun m => parentIter s j m) := by
  induction j generalizing n with
  | zero =>
    show (some n).bind s.parent = _
    rw [Option.some_bind]
    cases hp : s.parent n with
    | none => rfl
    | some m => rfl
  | succ i ih =>
    show (parentIter s (i + 1) n).bind s.parent = _
    rw [ih n]
    cases hp : s.parent n with
    | none => rfl
    | some m =>
      rw [Option.some_bind, Option.some_bind]
      show (parentIter s i m).bind s.parent = parentIter s (i + 1) m
      rfl

/-- If two states agree on every parent pointer except possibly node `c`,
then a parent chain of `s` that never visits `c` before its endpoint is
also a parent chain of `t`. -/
theorem parentIter_congr (s t : TreeState) (c : Nat)
    (hagree : ∀ n, n ≠ c → t.parent n = s.parent n) (P : Nat) :
    ∀ k D : Nat, (∀ i, i < k → parentIter s i P ≠ some c) →
      parentIter s k P = some D → parentIter t k P = some D := by
  intro k
  induction k with
  | zero =>
    intro D _ h
    exact h
  | succ j ih =>
    intro D havoid hk
    rw [parentIter] at hk ⊢
    cases hm : parentIter s j P with
    | none =>
      rw [hm] at hk
      exact Option.noConfusion hk
    | some m =>
      rw [hm, Option.some_bind] at hk
      have hmne : m ≠ c := by
        intro he
        exact havoid j (Nat.lt_succ_self j) (by rw [hm, he])
      rw [ih m (fun i hi => havoid i (Nat.lt_succ_of_lt hi)) hm, Option.some_bind,
        hagree m hmne]
      exact hk

theorem add_parent_c (s : TreeState) (p c : Nat) :
    (add s p c).parent c = some p := by
  unfold add
  by_cases h0 : s.parent c = some p
  · rw [if_pos h0]
    exact h0
  · rw [if_neg h0]
    simp [attachChild]

theorem add_parent_ne (s : TreeState) (p c n : Nat) (hn : n ≠ c) :
    (add s p c).parent n = s.parent n := by
  unfold add
  by_cases h0 : s.parent c = some p
  · rw [if_pos h0]
  · rw [if_neg h0]
    cases hq : s.parent c with
    | none => simp [hq, attachChild, hn]
    | some q => simp [hq, attachChild, removeNodeCore, hn]

/-- C1: the claim as stated is false: `TreeNode.add` performs no cycle
check, so a sequence of `add` operations can make a node its own proper
ancestor.  Starting from the empty forest, `add 0 1` then `add 1 0`
succeeds, and afterwards following parent pointers twice from node `0`
returns to node `0`. -/
theorem c1_counterexample :
    parentIter (applyOps initState [TreeOp.addOp 0 1, TreeOp.addOp 1 0]) 2 0 = some 0 := by
  decide

/-- C1 (amended): after every sequence of `add`/`removeNode` operations
from a consistent state, the mutual-consistency half of the invariant
holds: a node `a` is in `b`'s children array iff `a`'s parent pointer is
`b` (and children arrays stay duplicate-free).  The acyclicity half of the
claim is false (see the counterexample): no cycle check exists in `add`. -/
theorem c1_parent_children_consistent (s : TreeState) (ops : List TreeOp)
    (hs : Consistent s) : Consistent (applyOps s ops) :=
  applyOps_consistent ops s hs

theorem c1_parent_children_consistent_witness :
    Consistent initState ∧ Consistent (applyOps initState [TreeOp.addOp 0 1]) :=
  ⟨initState_consistent,
    c1_parent_children_consistent initState [TreeOp.addOp 0 1] initState_consistent⟩

/-- C2: the claim as stated is false: `add` never throws a `CycleError`
(no such check exists in the source) and it does mutate the tree.  In the
concrete state where node `0` is the parent (hence an ancestor) of node
`1`, calling `add` on parent `1` with child `0` returns successfully and
changes node `0`'s parent pointer from `none` to `some 1`. -/
theorem c2_counterexample :
    parentIter (applyOps initState [TreeOp.addOp 0 1]) 1 1 = some 0 ∧
      (applyOps initState [TreeOp.addOp 0 1]).parent 0 = none ∧
      (add (applyOps initState [TreeOp.addOp 0 1]) 1 0).parent 0 = some 1 := by
  refine ⟨?_, ?_, ?_⟩ <;> decide

/-- C2 (amended): `add(parent, child)` performs no ancestor check: when
`child` is an ancestor of `parent` (a parent chain of length `k ≥ 1` from
`parent` first reaches `child` at step `k`), the call succeeds, re-parents
`child` under `parent`, and creates a cycle — afterwards `child` is its own
ancestor via a chain of length `k + 1`.  No error is signalled and the
tree is mutated, contrary to the claim. -/
theorem c2_add_creates_cycle (s : TreeState) (P C k : Nat)
    (_hk1 : 1 ≤ k) (hk : parentIter s k P = some C)
    (hmin : ∀ i, i < k → parentIter s i P ≠ some C) :
    (add s P C).parent C = some P ∧ parentIter (add s P C) (k + 1) C = some C := by
  refine ⟨add_parent_c s P C, ?_⟩
  rw [parentIter_succ_front, add_parent_c s P C, Option.some_bind]
  exact parentIter_congr s (add s P C) C
    (fun n hn => add_parent_ne s P C n hn) P k C hmin hk

theorem c2_add_creates_cycle_witness :
    (1 ≤ 1 ∧ parentIter (applyOps initState [TreeOp.addOp 0 1]) 1 1 = some 0 ∧
        ∀ i, i < 1 → parentIter (applyOps initState [TreeOp.addOp 0 1]) i 1 ≠ some 0) ∧
      (add (applyOps initState [TreeOp.addOp 0 1]) 1 0).parent 0 = some 1 ∧
        parentIter (add (applyOps initState [TreeOp.addOp 0 1]) 1 0) 2 0 = some 0 := by
  refine ⟨⟨Nat.le_refl 1, by decide, ?_⟩, ?_⟩
  · intro i hi
    interval_cases i
    decide
  · exact c2_add_creates_cycle (applyOps initState [TreeOp.addOp 0 1]) 1 0 1
      (Nat.le_refl 1) (by decide) (by intro i hi; interval_cases i; decide)

theorem add_children_p (s : TreeState) (p c : Nat) (h : s.parent c ≠ some p) :
    (add s p c).children p = s.children p ++ [c] := by
  unfold add
  rw [if_neg h]
  cases hq : s.parent c with
  | none => simp [attachChild]
  | some q =>
    have hpq : ¬(p = q) := fun he => h (by rw [hq, he])
    simp [attachChild, removeNodeCore, hpq]

theorem add_connectedFlag_c (s : TreeState) (p c : Nat) (h : s.parent c ≠ some p) :
    (add s p c).connectedFlag c = true := by
  unfold add
  rw [if_neg h]
  cases hq : s.parent c with
  | none => simp [attachChild]
  | some q => simp [attachChild]

theorem add_children_old (s : TreeState) (p c q : Nat) (hs : Consistent s)
    (h : s.parent c ≠ some p) (hq : s.parent c = some q) :
    (add s p c).children q = (s.children q).erase c := by
  have hqp : ¬(q = p) := fun he => h (by rw [hq, he])
  have hcmem : c ∈ s.children q := (hs.1 c q).mpr hq
  unfold add
  rw [if_neg h]
  simp [hq, attachChild, removeNodeCore, hqp, spliceRemove, hcmem]

theorem add_pending (s : TreeState) (p c : Nat) (h : s.parent c ≠ some p) :
    (add s p c).pending = s.pending ++
      (match s.parent c with
       | some q => [TreeEvent.disconnectedEvt c q]
       | none => List.nil) ++ [TreeEvent.connectedEvt c p] := by
  unfold add
  rw [if_neg h]
  cases hq : s.parent c with
  | none => simp [attachChild]
  | some q => simp [attachChild, removeNodeCore]

/-- C6: `removeNode(childNode)` called on a parent that is not the child's
parent throws `ReferenceError('childNode is not a child of this parent.')`
synchronously — the guard is checked before any mutation, so the resulting
state (parent pointers, children arrays, connectivity flags, and even the
deferred-callback queue) is exactly the state before the call. -/
theorem c6_removeNode_rejects (s : TreeState) (p c : Nat)
    (h : s.parent c ≠ some p) :
    removeNode s p c = Except.error TreeErr.notAChild ∧
      stepOp s (TreeOp.removeOp p c) = s := by
  constructor
  · simp [removeNode, h]
  · simp [stepOp, removeNode, h]

theorem c6_removeNode_rejects_witness :
    initState.parent 1 ≠ some 0 ∧
      (removeNode initState 0 1 = Except.error TreeErr.notAChild ∧
        stepOp initState (TreeOp.removeOp 0 1) = initState) :=
  ⟨by decide, c6_removeNode_rejects initState 0 1 (by decide)⟩

/-- C7: the claim as stated is false for the case in which the child's
current parent is the very node `add` is called on: `add` returns
immediately (`if (childNode.__parent === this) return this`), so the child
is neither detached nor re-appended at the end of the children sequence.
Concretely, with children sequence `[1, 2]` under node `0`, calling `add`
on parent `0` with child `1` leaves the sequence `[1, 2]`; the claim
demands the child end up last. -/
theorem c7_counterexample :
    (applyOps initState [TreeOp.addOp 0 1, TreeOp.addOp 0 2]).parent 1 = some 0 ∧
      (add (applyOps initState [TreeOp.addOp 0 1, TreeOp.addOp 0 2]) 0 1).children 0 = [1, 2] ∧
      ((add (applyOps initState [TreeOp.addOp 0 1, TreeOp.addOp 0 2]) 0 1).children 0).getLast?
        ≠ some 1 := by
  refine ⟨?_, ?_, ?_⟩ <;> decide

/-- C7 (amended): if the child's current parent is already the node `add`
is called on, `add` is a no-op; otherwise (child parentless, or parented
elsewhere) the child is detached from its current parent's children array
(first occurrence erased), its parent pointer is set to the new parent, it
is appended to the end of the new parent's children sequence, and its
connectivity flag is set — all within the one synchronous call. -/
theorem c7_add_reparents (s : TreeState) (p c : Nat) (hs : Consistent s) :
    (s.parent c = some p → add s p c = s) ∧
    (s.parent c ≠ some p →
      (add s p c).parent c = some p ∧
      (add s p c).children p = s.children p ++ [c] ∧
      (add s p c).connectedFlag c = true ∧
      ∀ q : Nat, s.parent c = some q →
        (add s p c).children q = (s.children q).erase c) := by
  refine ⟨fun h => by simp [add, h], fun h => ?_⟩
  exact ⟨add_parent_c s p c, add_children_p s p c h, add_connectedFlag_c s p c h,
    fun q hq => add_children_old s p c q hs h hq⟩

theorem c7_add_reparents_witness :
    initState.parent 5 ≠ some 0 ∧
      ((add initState 0 5).parent 5 = some 0 ∧
        (add initState 0 5).children 0 = initState.children 0 ++ [5] ∧
        (add initState 0 5).connectedFlag 5 = true ∧
        ∀ q : Nat, initState.parent 5 = some q →
          (add initState 0 5).children q = (initState.children q).erase 5) :=
  ⟨by decide, (c7_add_reparents initState 0 5 initState_consistent).2 (by decide)⟩

/-- C8: when `add` (resp. `removeNode`) returns, the structural mutation is
fully applied — parent pointer, children array, and `__isConnected` flag —
while the `connected`/`childConnected` (resp.
`disconnected`/`childDisconnected`) callbacks have only been queued by
`defer(...)` onto the deferred-task queue (`pending`), not yet run: the
returned state's `pending` is the old queue with the new task(s) appended
at the back. -/
theorem c8_mutation_before_callbacks (s : TreeState) (p c : Nat)
    (hs : Consistent s) :
    (s.parent c ≠ some p →
      (add s p c).parent c = some p ∧
      (add s p c).children p = s.children p ++ [c] ∧
      (add s p c).connectedFlag c = true ∧
      (add s p c).pending = s.pending ++
        (match s.parent c with
         | some q => [TreeEvent.disconnectedEvt c q]
         | none => List.nil) ++ [TreeEvent.connectedEvt c p]) ∧
    (s.parent c = some p →
      removeNode s p c = Except.ok (removeNodeCore s p c) ∧
      (removeNodeCore s p c).parent c = none ∧
      (removeNodeCore s p c).connectedFlag c = false ∧
      c ∉ (removeNodeCore s p c).children p ∧
      (removeNodeCore s p c).pending = s.pending ++ [TreeEvent.disconnectedEvt c p]) := by
  constructor
  · intro h
    exact ⟨add_parent_c s p c, add_children_p s p c h, add_connectedFlag_c s p c h,
      add_pending s p c h⟩
  · intro h
    have hcmem : c ∈ s.children p := (hs.1 c p).mpr h
    refine ⟨by simp [removeNode, h], removeNodeCore_parent_c s p c, by simp [removeNodeCore],
      ?_, by simp [removeNodeCore]⟩
    have hch : (removeNodeCore s p c).children p = (s.children p).erase c := by
      simp [removeNodeCore, spliceRemove, hcmem]
    rw [hch]
    exact (hs.2 p).not_mem_erase

theorem c8_mutation_before_callbacks_witness :
    initState.parent 3 ≠ some 0 ∧
      ((add initState 0 3).parent 3 = some 0 ∧
        (add initState 0 3).children 0 = initState.children 0 ++ [3] ∧
        (add initState 0 3).connectedFlag 3 = true ∧
        (add initState 0 3).pending = initState.pending ++
          (match initState.parent 3 with
           | some q => [TreeEvent.disconnectedEvt 3 q]
           | none => List.nil) ++ [TreeEvent.connectedEvt 3 0]) :=
  ⟨by decide, (c8_mutation_before_callbacks initState 0 3 initState_consistent).1 (by decide)⟩

/-!
`TreeNode.subnodes` returns `[...this.__children]`, a fresh array.  The
purely functional `TreeState` above cannot express array aliasing, so the
accessor is embedded against a small heap of JavaScript arrays: `data r`
is the array stored at reference `r`, and references below `next` are the
allocated ones. -/

structure ArrayHeap where
  data : Nat → List Nat
  next : Nat

def readRef (h : ArrayHeap) (r : Nat) : List Nat := h.data r

def writeRef (h : ArrayHeap) (r : Nat) (l : List Nat) : ArrayHeap where
  data := fun x => if x = r then l else h.data x
  next := h.next

/-- `get subnodes() { return [...this.__children] }` for a node whose
`__children` array lives at reference `cref`: allocate a fresh array, copy
the children into it, and return the fresh reference. -/
def subnodes (h : ArrayHeap) (cref : Nat) : Nat × ArrayHeap :=
  (h.next,
    { data := fun x => if x = h.next then readRef h cref else h.data x
      next := h.next + 1 })

/-- `get childCount() { return this.__children.length }`. -/
def childCount (h : ArrayHeap) (cref : Nat) : Nat := (readRef h cref).length

/-- C10: `subnodes` returns a fresh copy of the node's children array: the
copy has the same contents, and however the caller mutates the returned
array (any transformation `m` of its contents — push, splice, reorder),
the node's actual children array, its `childCount`, and the contents
returned by any later `subnodes` read are unchanged. -/
theorem c10_subnodes_is_copy (h : ArrayHeap) (cref : Nat) (m : List Nat → List Nat)
    (hwf : cref < h.next) :
    readRef (subnodes h cref).2 (subnodes h cref).1 = readRef h cref ∧
      readRef (writeRef (subnodes h cref).2 (subnodes h cref).1
          (m (readRef (subnodes h cref).2 (subnodes h cref).1))) cref
        = readRef h cref ∧
      childCount (writeRef (subnodes h cref).2 (subnodes h cref).1
          (m (readRef (subnodes h cref).2 (subnodes h cref).1))) cref
        = childCount h cref ∧
      readRef
          (subnodes (writeRef (subnodes h cref).2 (subnodes h cref).1
            (m (readRef (subnodes h cref).2 (subnodes h cref).1))) cref).2
          (subnodes (writeRef (subnodes h cref).2 (subnodes h cref).1
            (m (readRef (subnodes h cref).2 (subnodes h cref).1))) cref).1
        = readRef h cref := by
  have hne : ¬(cref = h.next) := Nat.ne_of_lt hwf
  refine ⟨?_, ?_, ?_, ?_⟩ <;>
    simp [subnodes, readRef, writeRef, childCount, hne]

theorem c10_subnodes_is_copy_witness :
    (0 : Nat) < 1 ∧
      (readRef (subnodes ⟨fun _ => [7, 8], 1⟩ 0).2 (subnodes ⟨fun _ => [7, 8], 1⟩ 0).1
          = readRef ⟨fun _ => [7, 8], 1⟩ 0 ∧
        readRef (writeRef (subnodes ⟨fun _ => [7, 8], 1⟩ 0).2 (subnodes ⟨fun _ => [7, 8], 1⟩ 0).1
            ((fun l => 9 :: l) (readRef (subnodes ⟨fun _ => [7, 8], 1⟩ 0).2
              (subnodes ⟨fun _ => [7, 8], 1⟩ 0).1))) 0
          = readRef ⟨fun _ => [7, 8], 1⟩ 0 ∧
        childCount (writeRef (subnodes ⟨fun _ => [7, 8], 1⟩ 0).2 (subnodes ⟨fun _ => [7, 8], 1⟩ 0).1
            ((fun l => 9 :: l) (readRef (subnodes ⟨fun _ => [7, 8], 1⟩ 0).2
              (subnodes ⟨fun _ => [7, 8], 1⟩ 0).1))) 0
          = childCount ⟨fun _ => [7, 8], 1⟩ 0 ∧
        readRef
            (subnodes (writeRef (subnodes ⟨fun _ => [7, 8], 1⟩ 0).2
              (subnodes ⟨fun _ => [7, 8], 1⟩ 0).1
              ((fun l => 9 :: l) (readRef (subnodes ⟨fun _ => [7, 8], 1⟩ 0).2
                (subnodes ⟨fun _ => [7, 8], 1⟩ 0).1))) 0).2
            (subnodes (writeRef (subnodes ⟨fun _ => [7, 8], 1⟩ 0).2
              (subnodes ⟨fun _ => [7, 8], 1⟩ 0).1
              ((fun l => 9 :: l) (readRef (subnodes ⟨fun _ => [7, 8], 1⟩ 0).2
                (subnodes ⟨fun _ => [7, 8], 1⟩ 0).1))) 0).1
          = readRef ⟨fun _ => [7, 8], 1⟩ 0) :=
  ⟨Nat.zero_lt_one, c10_subnodes_is_copy ⟨fun _ => [7, 8], 1⟩ 0 (fun l => 9 :: l) Nat.zero_lt_one⟩

/-!
Embedding of `ImperativeBase._calculateMatrix` (unnamed source file
`part_000`, lines 696-808).  All numeric inputs are rationals; the embedded
function computes the quantities the method assigns: the shared
`appliedPosition` scratch array, the positions written to `three.position`
and `threeCSS.position`, and the pivots. -/

/-- A numeric triple, as used for position, align, mountPoint, origin and
sizes. -/
structure XYZ where
  x : ℚ
  y : ℚ
  z : ℚ
deriving DecidableEq, Repr

/-- Inputs read by `_calculateMatrix`: the element's align, mountPoint,
position and origin properties, its `calculatedSize`, its parent's size
(`_getParentSize()`), and whether its `threeCSS` object's parent is the
scene (`childOfScene`). -/
structure MatrixInputs where
  align : XYZ
  mountPoint : XYZ
  position : XYZ
  origin : XYZ
  size : XYZ
  parentSize : XYZ
  childOfScene : Bool

/-- Values computed and written by `_calculateMatrix`. -/
structure MatrixOutputs where
  appliedPosition : XYZ
  threePosition : XYZ
  threeCSSPosition : XYZ
  threePivot : XYZ
  threeCSSPivot : XYZ
deriving DecidableEq, Repr

/-- `ImperativeBase._calculateMatrix`: computes
`threeJsPostAdjustment = size/2 - parentSize/2` (the two
THREE-coords-to-DOM-coords translations), `alignAdjustment =
parentSize * align`, `mountPointAdjustment = size * mountPoint`,
`appliedPosition = position + alignAdjustment - mountPointAdjustment`;
writes `three.position` as the applied position plus the post adjustment
with Y negated; writes `threeCSS.position` the same way when the CSS
object is a direct child of the scene, and otherwise without the X/Y post
adjustment (only the Z offset); and sets the pivots from `origin` when
`origin` differs from `(0.5, 0.5, 0.5)`, else zero. -/
def calculateMatrix (i : MatrixInputs) : MatrixOutputs :=
  let postAdjX : ℚ := i.size.x / 2 - i.parentSize.x / 2
  let postAdjY : ℚ := i.size.y / 2 - i.parentSize.y / 2
  let postAdjZ : ℚ := i.size.z / 2 - i.parentSize.z / 2
  let alignAdj : XYZ :=
    ⟨i.parentSize.x * i.align.x, i.parentSize.y * i.align.y, i.parentSize.z * i.align.z⟩
  let mountAdj : XYZ :=
    ⟨i.size.x * i.mountPoint.x, i.size.y * i.mountPoint.y, i.size.z * i.mountPoint.z⟩
  let applied : XYZ :=
    ⟨i.position.x + alignAdj.x - mountAdj.x,
     i.position.y + alignAdj.y - mountAdj.y,
     i.position.z + alignAdj.z - mountAdj.z⟩
  let threePos : XYZ :=
    ⟨applied.x + postAdjX, -(applied.y + postAdjY), applied.z + postAdjZ⟩
  let cssPos : XYZ :=
    if i.childOfScene then ⟨applied.x + postAdjX, -(applied.y + postAdjY), applied.z + postAdjZ⟩
    else ⟨applied.x, -applied.y, applied.z + postAdjZ⟩
  let pivot : XYZ :=
    if i.origin.x ≠ (1 : ℚ) / 2 ∨ i.origin.y ≠ (1 : ℚ) / 2 ∨ i.origin.z ≠ (1 : ℚ) / 2 then
      ⟨i.origin.x * i.size.x - i.size.x / 2,
       -(i.origin.y * i.size.y - i.size.y / 2),
       i.origin.z * i.size.z - i.size.z / 2⟩
    else ⟨0, 0, 0⟩
  ⟨applied, threePos, cssPos, pivot, pivot⟩

/-- C4: for every combination of inputs, the applied position computed by
`_calculateMatrix` is, per axis, the stored position plus the anchor
offset (`align × parentSize`) minus the mount offset
(`mountPoint × ownSize`). -/
theorem c4_applied_position (i : MatrixInputs) :
    (calculateMatrix i).appliedPosition =
      ⟨i.position.x + i.align.x * i.parentSize.x - i.mountPoint.x * i.size.x,
       i.position.y + i.align.y * i.parentSize.y - i.mountPoint.y * i.size.y,
       i.position.z + i.align.z * i.parentSize.z - i.mountPoint.z * i.size.z⟩ := by
  simp only [calculateMatrix, XYZ.mk.injEq]
  refine ⟨by ring, by ring, by ring⟩

/-!
Embedding of `GltfModelBehavior` (second file in `utils/Settable.ts`):
the per-behavior `#version` token, the `gltfLoader.load` callbacks of
`#loadObj` (each guarded by `version == this.#version`), and the two code
paths that increment the token. -/

inductive GltfEvent where
  | progressEvt : GltfEvent
  | modelLoadEvt : GltfEvent
  | modelErrorEvt : GltfEvent
deriving DecidableEq, Repr

/-- Observable state of one `GltfModelBehavior`: the `#version` token, the
`model` property, the children added to `this.element.three` (the model
scenes), and the events emitted on the element. -/
structure GltfState where
  version : Nat
  model : Option Nat
  sceneChildren : List Nat
  events : List GltfEvent
deriving DecidableEq, Repr

/-- `#setModel(model)`: store the model, add its scene to `element.three`,
and emit `MODEL_LOAD`. -/
def setModel (s : GltfState) (m : Nat) : GltfState where
  version := s.version
  model := some m
  sceneChildren := s.sceneChildren ++ [m]
  events := s.events ++ [GltfEvent.modelLoadEvt]

/-- The load callback `model => version == this.#version && this.#setModel(model)`,
where `version` is the token captured when `#loadObj` started. -/
def onLoad (captured : Nat) (m : Nat) (s : GltfState) : GltfState :=
  if captured = s.version then setModel s m else s

/-- The progress callback
`progress => version == this.#version && this.element.emit(Events.PROGRESS, progress)`. -/
def onProgress (captured : Nat) (s : GltfState) : GltfState :=
  if captured = s.version then { s with events := s.events ++ [GltfEvent.progressEvt] } else s

/-- The error callback `error => version == this.#version && this.#onError(error)`;
`#onError` emits `MODEL_ERROR`. -/
def onError (captured : Nat) (s : GltfState) : GltfState :=
  if captured = s.version then { s with events := s.events ++ [GltfEvent.modelErrorEvt] } else s

/-- `#cleanupModel()`: dispose the current model tree (external) and clear
the `model` property. -/
def cleanupModel (s : GltfState) : GltfState := { s with model := none }

/-- The body of the `loadGL` autorun that tracks `src`, `dracoDecoder` and
`centerGeometry`: `#cleanupModel(); #version++;` then `#loadObj()` starts a
fresh load capturing the new token. -/
def srcChangeStep (s : GltfState) : GltfState :=
  { cleanupModel s with version := (cleanupModel s).version + 1 }

/-- `unloadGL()`: stop the autoruns, dispose the loaders, `#cleanupModel()`,
and increment `#version` in case the loader is still loading. -/
def unloadGLStep (s : GltfState) : GltfState :=
  { cleanupModel s with version := (cleanupModel s).version + 1 }

/-- C5: a completion (success, progress, or error) whose captured version
token differs from the behavior's current token is discarded: the guard
`version == this.#version` short-circuits, so the state is unchanged — no
model is set, nothing is added to `element.three`, and no event is
emitted.  Both restart paths (the src/dracoDecoder autorun and
`unloadGL`) increment the token, making any token captured earlier stale;
and a completion whose captured token equals the current one does take
effect (`#setModel`). -/
theorem c5_stale_completion_discarded (captured m : Nat) (s : GltfState)
    (h : captured ≠ s.version) :
    onLoad captured m s = s ∧ onProgress captured s = s ∧ onError captured s = s ∧
      (srcChangeStep s).version = s.version + 1 ∧
      (unloadGLStep s).version = s.version + 1 ∧
      onLoad s.version m s = setModel s m := by
  refine ⟨?_, ?_, ?_, ?_, ?_, ?_⟩ <;>
    simp [onLoad, onProgress, onError, srcChangeStep, unloadGLStep, cleanupModel, h]

theorem c5_stale_completion_discarded_witness :
    (0 : Nat) ≠ (1 : Nat) ∧
      (onLoad 0 42 (GltfState.mk 1 none [] []) = GltfState.mk 1 none [] [] ∧
        onProgress 0 (GltfState.mk 1 none [] []) = GltfState.mk 1 none [] [] ∧
        onError 0 (GltfState.mk 1 none [] []) = GltfState.mk 1 none [] [] ∧
        (srcChangeStep (GltfState.mk 1 none [] [])).version = 1 + 1 ∧
        (unloadGLStep (GltfState.mk 1 none [] [])).version = 1 + 1 ∧
        onLoad 1 42 (GltfState.mk 1 none [] []) = setModel (GltfState.mk 1 none [] []) 42) :=
  ⟨by decide, by
    have hx := c5_stale_completion_discarded 0 42 (GltfState.mk 1 none [] []) (by decide)
    simpa using hx⟩

/-!
Embedding of the backend-object creation paths of `ImperativeBase`
(unnamed source file `part_000`): the `three` / `threeCSS` lazy getters
(lines 152-188) and `_loadGL` / `_loadCSS` (lines 557-581 and 601-625). -/

/-- Backend-related state of one node: the scene's backend flags as seen
from the node (`this.scene`, `this.scene.webgl`, `this.scene.enableCss`),
the node's `_glLoaded`/`_cssLoaded` flags, its lazily created `__three`
and `__threeCSS` objects, the children lists of the parent's backend
objects (the attach targets of `_connectThree`/`_connectThreeCSS`), and a
fresh-id counter for object creation. -/
structure NodeBackendState where
  hasScene : Bool
  webgl : Bool
  enableCss : Bool
  glLoaded : Bool
  cssLoaded : Bool
  threeObj : Option Nat
  threeCSSObj : Option Nat
  parentThreeChildren : List Nat
  parentThreeCSSChildren : List Nat
  nextId : Nat
deriving DecidableEq, Repr

/-- `get three()`: `if (!this.__three) this.__three = this.__makeThreeObject3d();
return this.__three` — creation is lazy but unconditional: the guard
`if (!(this.scene && this.scene.webgl)) return null` exists only as a
commented-out line. -/
def threeGet (s : NodeBackendState) : Nat × NodeBackendState :=
  match s.threeObj with
  | some o => (o, s)
  | none => (s.nextId, { s with threeObj := some s.nextId, nextId := s.nextId + 1 })

/-- `get threeCSS()`: same lazy unconditional creation for the
DOM-positioned backend object. -/
def threeCSSGet (s : NodeBackendState) : Nat × NodeBackendState :=
  match s.threeCSSObj with
  | some o => (o, s)
  | none => (s.nextId, { s with threeCSSObj := some s.nextId, nextId := s.nextId + 1 })

/-- `_loadGL()`: returns `false` with no effect unless
`this.scene && this.scene.webgl` holds and the node is not already
loaded; otherwise sets `_glLoaded`, touches `this.three` (creating it on
first need, to set `matrixAutoUpdate = false`), and connects it into the
parent's three object (`_connectThree`). -/
def loadGL (s : NodeBackendState) : Bool × NodeBackendState :=
  if !(s.hasScene && s.webgl) then (false, s)
  else if s.glLoaded then (false, s)
  else
    let os2 := threeGet { s with glLoaded := true }
    (true, { os2.2 with parentThreeChildren := os2.2.parentThreeChildren ++ [os2.1] })

/-- `_loadCSS()`: the analogue guarded by `this.scene && this.scene.enableCss`. -/
def loadCSS (s : NodeBackendState) : Bool × NodeBackendState :=
  if !(s.hasScene && s.enableCss) then (false, s)
  else if s.cssLoaded then (false, s)
  else
    let os2 := threeCSSGet { s with cssLoaded := true }
    (true, { os2.2 with parentThreeCSSChildren := os2.2.parentThreeCSSChildren ++ [os2.1] })

/-- C9: the claim as stated is false: the backend objects are *not*
created "only if the corresponding backend is currently active".  The
`three` getter creates the 3D backend object on first access regardless of
the scene's `webgl` flag (the flag check is commented out in the source):
in a concrete state with `webgl = false` and no `__three`, reading `three`
creates the object. -/
theorem c9_counterexample :
    (NodeBackendState.mk true false true false false none none [] [] 0).webgl = false ∧
      (NodeBackendState.mk true false true false false none none [] [] 0).threeObj = none ∧
      (threeGet (NodeBackendState.mk true false true false false none none [] [] 0)).2.threeObj
        = some 0 := by
  refine ⟨rfl, rfl, rfl⟩

/-- C9 (amended): the 3D and DOM-positioned backend objects are created
lazily on first access of `three`/`threeCSS`, unconditionally; what is
conditional on the backend being active for the owning scene is the
*loading* step: `_loadGL` (resp. `_loadCSS`) refuses — returns `false`
with no state change, creating and connecting nothing — unless the scene
is present and its `webgl` (resp. `enableCss`) flag is on, and on first
load it creates the object on first need and connects it to the parent's
backend object. -/
theorem c9_lazy_creation (s : NodeBackendState) :
    (∀ o : Nat, s.threeObj = some o → threeGet s = (o, s)) ∧
    (s.threeObj = none → (threeGet s).2.threeObj = some s.nextId) ∧
    (∀ o : Nat, s.threeCSSObj = some o → threeCSSGet s = (o, s)) ∧
    (s.threeCSSObj = none → (threeCSSGet s).2.threeCSSObj = some s.nextId) ∧
    ((s.hasScene && s.webgl) = false → loadGL s = (false, s)) ∧
    ((s.hasScene && s.enableCss) = false → loadCSS s = (false, s)) ∧
    ((s.hasScene && s.webgl) = true → s.glLoaded = false →
      (loadGL s).1 = true ∧ (loadGL s).2.glLoaded = true) ∧
    ((s.hasScene && s.enableCss) = true → s.cssLoaded = false →
      (loadCSS s).1 = true ∧ (loadCSS s).2.cssLoaded = true) := by
  refine ⟨?_, ?_, ?_, ?_, ?_, ?_, ?_, ?_⟩
  · intro o ho
    simp [threeGet, ho]
  · intro ho
    simp [threeGet, ho]
  · intro o ho
    simp [threeCSSGet, ho]
  · intro ho
    simp [threeCSSGet, ho]
  · intro hflag
    simp [loadGL, hflag]
  · intro hflag
    simp [loadCSS, hflag]
  · intro hflag hload
    cases hobj : s.threeObj <;>
      simp [loadGL, hflag, hload, threeGet, hobj]
  · intro hflag hload
    cases hobj : s.threeCSSObj <;>
      simp [loadCSS, hflag, hload, threeCSSGet, hobj]

theorem c9_lazy_creation_witness :
    ((NodeBackendState.mk true false true false false (some 7) none [] [] 8).threeObj = some 7 ∧
      threeGet (NodeBackendState.mk true false true false false (some 7) none [] [] 8)
        = (7, NodeBackendState.mk true false true false false (some 7) none [] [] 8)) ∧
    ((NodeBackendState.mk true false true false false none none [] [] 0).hasScene &&
        (NodeBackendState.mk true false true false false none none [] [] 0).webgl) = false ∧
    loadGL (NodeBackendState.mk true false true false false none none [] [] 0)
      = (false, NodeBackendState.mk true false true false false none none [] [] 0) :=
  ⟨⟨rfl, (c9_lazy_creation (NodeBackendState.mk true false true false false (some 7) none [] [] 8)).1
      7 rfl⟩,
    rfl,
    ((c9_lazy_creation (NodeBackendState.mk true false true false false none none [] [] 0)).2.2.2.2.1)
      rfl⟩

/-!
Embedding of the size-resolution layer.  The per-axis size modes and the
parent-size propagation autorun are in the source (`connectedCallback`,
unnamed file `part_000` lines 220-238, and `Scene`); the body of
`Sizeable._calcSize` itself is not among the source files, so the per-axis
algebra is modelled from the spec (see `calcAxis`). -/

/-- A per-axis size mode.  The source's `SizeMode` values are `'literal'`
and `'proportional'` (the guard in `connectedCallback` tests only for
`'proportional'`). -/
inductive SizeModeV where
  | literal : SizeModeV
  | proportional : SizeModeV
deriving DecidableEq, Repr

/-- A size-mode triple (one mode per axis). -/
structure XYZSizeMode where
  x : SizeModeV
  y : SizeModeV
  z : SizeModeV
deriving DecidableEq, Repr

/-- Modelled from the spec: the body of `Sizeable._calcSize` is not among
the source files (only its call sites in `connectedCallback` and `Scene`
are), so the per-axis resolution algebra follows §4.2 of the spec:
`literal` resolves to the node's own stored size value for the axis,
unaffected by the parent; `proportional` resolves to the parent's resolved
size for that axis times the node's stored value (treated as a
fraction). -/
def calcAxis : SizeModeV → ℚ → ℚ → ℚ
  | SizeModeV.literal, v, _ => v
  | SizeModeV.proportional, v, p => p * v

/-- Resolve a full size triple from the mode triple, the stored size
triple, and the parent's resolved size triple. -/
def calcSize (mode : XYZSizeMode) (size parentSize : XYZ) : XYZ :=
  XYZ.mk (calcAxis mode.x size.x parentSize.x) (calcAxis mode.y size.y parentSize.y)
    (calcAxis mode.z size.z parentSize.z)

/-- A node of the logical tree with the inputs the size resolver reads:
size-mode triple, stored size triple, align-point triple, and children. -/
inductive SNode where
  | mk : XYZSizeMode → XYZ → XYZ → List SNode → SNode

def SNode.sizeMode : SNode → XYZSizeMode
  | SNode.mk m _ _ _ => m

def SNode.size : SNode → XYZ
  | SNode.mk _ s _ _ => s

def SNode.alignPoint : SNode → XYZ
  | SNode.mk _ _ a _ => a

def SNode.childList : SNode → List SNode
  | SNode.mk _ _ _ c => c

/-- The cached `calculatedSize` values of a subtree, mirroring its
shape. -/
inductive CTree where
  | mk : XYZ → List CTree → CTree

def CTree.calculatedSize : CTree → XYZ
  | CTree.mk v _ => v

def CTree.childList : CTree → List CTree
  | CTree.mk _ c => c

def isProp : SizeModeV → Bool
  | SizeModeV.proportional => true
  | SizeModeV.literal => false

/-- The guard of the `connectedCallback` autorun that tracks
`this.parent.calculatedSize` (part_000 lines 220-238): the node re-runs
`_calcSize()` and `needsUpdate()` iff some axis size-mode is
`'proportional'` or some align-point component is non-zero. -/
def propagationGuard (n : SNode) : Bool :=
  isProp n.sizeMode.x || isProp n.sizeMode.y || isProp n.sizeMode.z ||
    !(n.alignPoint.x == 0) || !(n.alignPoint.y == 0) || !(n.alignPoint.z == 0)

mutual
/-- One wave of the parent-size autoruns after a node's parent wrote its
`calculatedSize` with value `pSize`: if the node's guard holds it
recomputes its own size from the new parent size, and — because its own
`calculatedSize` was thereby written — its children's autoruns fire in
turn; if the guard fails the node keeps its cached size and nothing below
it fires. -/
def updateNode : SNode → CTree → XYZ → CTree
  | SNode.mk mode size align ns, CTree.mk cv cs, pSize =>
    if propagationGuard (SNode.mk mode size align ns) then
      CTree.mk (calcSize mode size pSize) (updateList ns cs (calcSize mode size pSize))
    else CTree.mk cv cs

def updateList : List SNode → List CTree → XYZ → List CTree
  | [], _, _ => []
  | _ :: _, [], _ => []
  | n :: nr, c :: cr, pSize => updateNode n c pSize :: updateList nr cr pSize
end

mutual
/-- A settled (non-dirty) state: every node's cached `calculatedSize`
equals the value computed from its mode, its stored size, and its parent's
settled size. -/
inductive Settled : XYZ → SNode → CTree → Prop where
  | mk : ∀ {ps : XYZ} {mode : XYZSizeMode} {size align v : XYZ} {ns : List SNode}
      {cs : List CTree},
      v = calcSize mode size ps → SettledList v ns cs →
      Settled ps (SNode.mk mode size align ns) (CTree.mk v cs)

inductive SettledList : XYZ → List SNode → List CTree → Prop where
  | nil : ∀ {ps : XYZ}, SettledList ps [] []
  | cons : ∀ {ps : XYZ} {n : SNode} {c : CTree} {ns : List SNode} {cs : List CTree},
      Settled ps n c → SettledList ps ns cs → SettledList ps (n :: ns) (c :: cs)
end

theorem calcSize_guard_false (mode : XYZSizeMode) (size align : XYZ) (ns : List SNode)
    (hg : propagationGuard (SNode.mk mode size align ns) = false) (p q : XYZ) :
    calcSize mode size p = calcSize mode size q := by
  cases mode with
  | mk mx my mz =>
    cases mx <;> cases my <;> cases mz <;>
      simp_all [propagationGuard, SNode.sizeMode, SNode.alignPoint, isProp, calcSize, calcAxis]

mutual
theorem updateNode_settled : ∀ (n : SNode) (c : CTree) (oldPs newPs : XYZ),
    Settled oldPs n c → Settled newPs n (updateNode n c newPs)
  | SNode.mk mode size align ns, CTree.mk cv cs, oldPs, newPs, hst => by
    cases hst with
    | mk hv hcs =>
      show Settled newPs (SNode.mk mode size align ns)
        (updateNode (SNode.mk mode size align ns) (CTree.mk cv cs) newPs)
      rw [updateNode]
      by_cases hg : propagationGuard (SNode.mk mode size align ns) = true
      · rw [if_pos hg]
        exact Settled.mk rfl
          (updateList_settled ns cs cv (calcSize mode size newPs) hcs)
      · rw [if_neg hg]
        have hg2 : propagationGuard (SNode.mk mode size align ns) = false :=
          Bool.eq_false_iff.mpr hg
        have heq : calcSize mode size oldPs = calcSize mode size newPs :=
          calcSize_guard_false mode size align ns hg2 oldPs newPs
        exact Settled.mk (hv.trans heq) hcs

theorem updateList_settled : ∀ (ns : List SNode) (cs : List CTree) (oldPs newPs : XYZ),
    SettledList oldPs ns cs → SettledList newPs ns (updateList ns cs newPs)
  | [], cs, oldPs, newPs, h => by
    cases h with
    | nil =>
      rw [updateList]
      exact SettledList.nil
  | n :: nr, c :: cr, oldPs, newPs, h => by
    cases h with
    | cons hn hns =>
      rw [updateList]
      exact SettledList.cons (updateNode_settled n c oldPs newPs hn)
        (updateList_settled nr cr oldPs newPs hns)
end

/-- C3: (first conjunct) in every settled (non-dirty) state, a node whose
size-mode on an axis is `proportional` has resolved size on that axis
equal to the parent's resolved size times its stored size value for that
axis; (second conjunct) whenever a node's parent's resolved size changes
to a new value, the autorun wave rooted at that node re-resolves it and,
transitively, every descendant whose mode depends on the change, and the
tree it produces is settled with respect to the new parent size.  The
size algebra `calcAxis` is modelled from the spec because
`Sizeable._calcSize` is not among the source files; the propagation guard
and wave follow the source's `connectedCallback` autorun. -/
theorem c3_proportional_resolution :
    (∀ (ps : XYZ) (mode : XYZSizeMode) (size align v : XYZ) (ns : List SNode)
        (cs : List CTree),
      Settled ps (SNode.mk mode size align ns) (CTree.mk v cs) →
        (mode.x = SizeModeV.proportional → v.x = ps.x * size.x) ∧
        (mode.y = SizeModeV.proportional → v.y = ps.y * size.y) ∧
        (mode.z = SizeModeV.proportional → v.z = ps.z * size.z)) ∧
    ∀ (oldPs newPs : XYZ) (n : SNode) (c : CTree),
      Settled oldPs n c → Settled newPs n (updateNode n c newPs) := by
  constructor
  · intro ps mode size align v ns cs hst
    cases hst with
    | mk hv _ =>
      refine ⟨?_, ?_, ?_⟩ <;> intro hm <;> rw [hv] <;>
        simp [calcSize, hm, calcAxis]
  · intro oldPs newPs n c hst
    exact updateNode_settled n c oldPs newPs hst

theorem c3_proportional_resolution_witness :
    Settled (XYZ.mk 800 600 0)
      (SNode.mk (XYZSizeMode.mk SizeModeV.proportional SizeModeV.proportional SizeModeV.literal)
        (XYZ.mk (1 / 2) (1 / 2) 0) (XYZ.mk 0 0 0) [])
      (CTree.mk (XYZ.mk 400 300 0) []) ∧
    ((XYZSizeMode.mk SizeModeV.proportional SizeModeV.proportional SizeModeV.literal).x
        = SizeModeV.proportional →
      (XYZ.mk 400 300 0).x = (XYZ.mk 800 600 0).x * (XYZ.mk (1 / 2) (1 / 2) 0).x) ∧
    Settled (XYZ.mk 1000 600 0)
      (SNode.mk (XYZSizeMode.mk SizeModeV.proportional SizeModeV.proportional SizeModeV.literal)
        (XYZ.mk (1 / 2) (1 / 2) 0) (XYZ.mk 0 0 0) [])
      (updateNode
        (SNode.mk (XYZSizeMode.mk SizeModeV.proportional SizeModeV.proportional SizeModeV.literal)
          (XYZ.mk (1 / 2) (1 / 2) 0) (XYZ.mk 0 0 0) [])
        (CTree.mk (XYZ.mk 400 300 0) []) (XYZ.mk 1000 600 0)) := by
  have hv : XYZ.mk 400 300 0 =
      calcSize (XYZSizeMode.mk SizeModeV.proportional SizeModeV.proportional SizeModeV.literal)
        (XYZ.mk (1 / 2) (1 / 2) 0) (XYZ.mk 800 600 0) := by
    simp [calcSize, calcAxis]
    norm_num
  have hst : Settled (XYZ.mk 800 600 0)
      (SNode.mk (XYZSizeMode.mk SizeModeV.proportional SizeModeV.proportional SizeModeV.literal)
        (XYZ.mk (1 / 2) (1 / 2) 0) (XYZ.mk 0 0 0) [])
      (CTree.mk (XYZ.mk 400 300 0) []) := Settled.mk hv SettledList.nil
  refine ⟨hst, ?_, ?_⟩
  · intro hm
    exact ((c3_proportional_resolution.1 (XYZ.mk 800 600 0)
      (XYZSizeMode.mk SizeModeV.proportional SizeModeV.proportional SizeModeV.literal)
      (XYZ.mk (1 / 2) (1 / 2) 0) (XYZ.mk 0 0 0) (XYZ.mk 400 300 0) [] [] hst).1) hm
  · exact c3_proportional_resolution.2 (XYZ.mk 800 600 0) (XYZ.mk 1000 600 0) _ _ hst

end LumeSpec
